import Mathlib

/-!
Shallow embedding of `src/python/yt_downloader.py` (class `YouTubeDownloader`)
and proofs about its behaviour.

Conventions:
* Python regex character classes are modelled over ASCII (the strings this
  program handles are ASCII); `\w` is `[0-9A-Za-z_]`, `\s` is ASCII whitespace.
* Optional JSON fields are modelled as `Option`; an absent key and a key
  bound to `None` behave identically in the embedded code paths, with one
  exception that is modelled explicitly: the audio-selection sort key
  `x.get('bitrate', 0)`.  Audio-only records are produced only by the
  adaptive-format loop, which always binds `'bitrate'` (to `None` when the
  raw format lacks one), so the `0` default is dead there and a `None` key
  takes part in sort comparisons, raising `TypeError` (see
  `pySortDescOptKey`).
* Machine integers do not overflow in any embedded computation, so `Nat`/`Int`
  are used directly.
-/

namespace YtScrapper

/-! ## Character classes (ASCII models of the regex classes used in the source) -/

/-- Model of the regex class `\w` (= `[0-9A-Za-z_]` over ASCII). -/
def isWordChar (c : Char) : Bool :=
  (48 ≤ c.toNat && c.toNat ≤ 57) || (65 ≤ c.toNat && c.toNat ≤ 90) ||
    (97 ≤ c.toNat && c.toNat ≤ 122) || c == '_'

/-- Model of the regex class `\s` (ASCII whitespace: space, `\t`, `\n`, `\r`, `\x0b`, `\x0c`). -/
def isSpaceChar (c : Char) : Bool :=
  c == ' ' || c == '\t' || c == '\n' || c == '\r' || c == '\x0b' || c == '\x0c'

/-- The regex class `[-\s]` used in the sanitizer's second substitution. -/
def isSpaceHyphen (c : Char) : Bool :=
  isSpaceChar c || c == '-'

/-- The regex class `[0-9A-Za-z_-]` used by the video-id patterns. -/
def isIdChar (c : Char) : Bool :=
  isWordChar c || c == '-'

def isDigitChar (c : Char) : Bool :=
  48 ≤ c.toNat && c.toNat ≤ 57

/-! ## Model of Python `int(str)`

`int` accepts an optional sign followed by one or more digits.  (Python also
accepts surrounding whitespace and interior underscores; such strings never
arise in the embedded code paths, so they are out of scope of this model.)
Failure (Python `ValueError`) is `none`. -/

def digitsToNat (cs : List Char) : Nat :=
  cs.foldl (fun acc c => acc * 10 + (c.toNat - 48)) 0

def pyIntChars : List Char → Option Int
  | [] => none
  | c :: rest =>
      if c = '-' then
        if rest ≠ [] ∧ rest.all isDigitChar then some (-(digitsToNat rest : Int)) else none
      else if c = '+' then
        if rest ≠ [] ∧ rest.all isDigitChar then some (digitsToNat rest : Int) else none
      else if (c :: rest).all isDigitChar then some (digitsToNat (c :: rest) : Int)
      else none

def pyInt (s : String) : Option Int :=
  pyIntChars s.toList

/-! ## `extract_video_id` (lines 148–161)

Three regexes are tried in order with `re.search`:
  1. `(?:v=|\/)([0-9A-Za-z_-]{11}).*`
  2. `(?:embed\/)([0-9A-Za-z_-]{11})`
  3. `^([0-9A-Za-z_-]{11})$`
The first match's group 1 is returned; if none match, `ValueError` is raised
(modelled as `none`). -/

/-- Consume exactly `n` id-characters from the front; return them and the rest. -/
def grabId : Nat → List Char → Option (List Char × List Char)
  | 0, rest => some ([], rest)
  | _ + 1, [] => none
  | n + 1, c :: rest =>
      if isIdChar c then (grabId n rest).map (fun p => (c :: p.1, p.2)) else none

/-- Attempt pattern 1 anchored at the current position: `(?:v=|\/)` then 11
id-chars (the trailing `.*` always succeeds). -/
def pat1At (cs : List Char) : Option (List Char) :=
  match cs with
  | 'v' :: '=' :: rest => (grabId 11 rest).map Prod.fst
  | '/' :: rest => (grabId 11 rest).map Prod.fst
  | _ => none

/-- `re.search` for pattern 1: leftmost position where `pat1At` succeeds. -/
def search1 : List Char → Option (List Char)
  | [] => none
  | c :: rest =>
      match pat1At (c :: rest) with
      | some g => some g
      | none => search1 rest

/-- Attempt pattern 2 anchored at the current position: literal `embed/` then 11 id-chars. -/
def pat2At (cs : List Char) : Option (List Char) :=
  match cs with
  | 'e' :: 'm' :: 'b' :: 'e' :: 'd' :: '/' :: rest => (grabId 11 rest).map Prod.fst
  | _ => none

/-- `re.search` for pattern 2. -/
def search2 : List Char → Option (List Char)
  | [] => none
  | c :: rest =>
      match pat2At (c :: rest) with
      | some g => some g
      | none => search2 rest

/-- Pattern 3: the whole string is exactly 11 id-chars (`^...$`). -/
def pat3 (cs : List Char) : Option (List Char) :=
  match grabId 11 cs with
  | some (g, []) => some g
  | _ => none

/-- `extract_video_id`: try the three patterns in order; `none` models the
`ValueError("Could not extract video ID from URL")`. -/
def extract_video_id (url : String) : Option String :=
  match search1 url.toList with
  | some g => some (String.mk g)
  | none =>
      match search2 url.toList with
      | some g => some (String.mk g)
      | none =>
          match pat3 url.toList with
          | some g => some (String.mk g)
          | none => none

/-! ## Format records (the normalizer's output shape, lines 209–235) -/

structure FormatRecord where
  itag : Option Nat := none
  quality : Option String := none
  mimeType : Option String := none
  url : Option String := none
  hasAudio : Bool := false
  hasVideo : Bool := false
  bitrate : Option Nat := none
  deriving DecidableEq, Repr

/-- Raw format dict as it appears in `streamingData.formats` /
`streamingData.adaptiveFormats` of the parsed player response. -/
structure RawFormat where
  itag : Option Nat := none
  qualityLabel : Option String := none
  quality : Option String := none
  mimeType : Option String := none
  url : Option String := none
  bitrate : Option Nat := none
  deriving DecidableEq, Repr

/-- Python truthiness of `fmt.get('url')`: present and non-empty. -/
def RawFormat.hasUrl (f : RawFormat) : Bool :=
  match f.url with
  | some s => s ≠ ""
  | none => false

/-- A combined format entry (lines 212–221): `hasAudio`/`hasVideo` are both true,
`quality` is `fmt.get('qualityLabel', fmt.get('quality'))`, no bitrate key. -/
def mkCombined (f : RawFormat) : FormatRecord :=
  { itag := f.itag
    quality := f.qualityLabel <|> f.quality
    mimeType := f.mimeType
    url := f.url
    hasAudio := true
    hasVideo := true
    bitrate := none }

/-- Substring containment over char lists (Python's `in` on strings). -/
def containsSub (needle : List Char) : List Char → Bool
  | [] => needle.isPrefixOf []
  | c :: rest => needle.isPrefixOf (c :: rest) || containsSub needle rest

/-- `'audio' in mime_type` — substring containment. -/
def mimeContains (needle mime : String) : Bool :=
  containsSub needle.toList mime.toList

/-- An adaptive format entry (lines 224–235): membership inferred from the MIME
type string; `mime_type = fmt.get('mimeType', '')`. -/
def mkAdaptive (f : RawFormat) : FormatRecord :=
  let mime := f.mimeType.getD ""
  { itag := f.itag
    quality := f.qualityLabel <|> f.quality
    mimeType := f.mimeType
    url := f.url
    hasAudio := mimeContains "audio" mime
    hasVideo := mimeContains "video" mime
    bitrate := f.bitrate }

/-- The two format loops of `get_video_info` (lines 209–235): iterate the
combined list then the adaptive list, appending records whose `url` is truthy. -/
def normalizeFormats (combined adaptive : List RawFormat) : List FormatRecord :=
  let fs := combined.foldl (fun acc f => if f.hasUrl then acc ++ [mkCombined f] else acc) []
  adaptive.foldl (fun acc f => if f.hasUrl then acc ++ [mkAdaptive f] else acc) fs

/-! ## `get_resolution` (lines 340–347)

```python
quality_str = f.get('quality', '')
if isinstance(quality_str, str) and 'p' in quality_str:
    try: return int(quality_str.replace('p', ''))
    except: pass
return 0
```
Note `str.replace('p', '')` removes **every** occurrence of `p`. -/

/-- `quality_str.replace('p', '')`. -/
def removeAllP (s : String) : String :=
  String.mk (s.toList.filter (fun c => c ≠ 'p'))

def get_resolution (f : FormatRecord) : Int :=
  match f.quality with
  | none => 0
  | some q =>
      if ('p' ∈ q.toList) then
        match pyInt (removeAllP q) with
        | some n => n
        | none => 0
      else 0

/-! ## `_make_request` (lines 104–146)

The transport is an oracle mapping the index of an *issued* request to its
outcome.  Sleeps are recorded as events; the backoff sleep on attempt `a`
lasts `2^a + uniform(0,1)` time units, the retry delay `uniform(1,3)`, and
`sleepOne` exactly 1.  The local variable `data` starts as a (truthy) JSON
dict when a body is supplied and is overwritten with its serialized bytes on
the first iteration that reaches `json.dumps`; `json.dumps` applied to bytes
raises `TypeError` (caught by the generic `except Exception` handler). -/

inductive ReqOutcome where
  | success (payload : String)
  | httpError (code : Nat)
  | otherExc
  deriving DecidableEq, Repr

inductive BodyData where
  | jsonDict
  | rawBytes
  deriving DecidableEq, Repr

inductive ReqError where
  | httpErr (code : Nat)
  | typeError
  | otherErr
  | implicitNone
  deriving DecidableEq, Repr

inductive Ev where
  | retryDelay
  | request (i : Nat)
  | backoff (attempt : Nat)
  | sleepOne
  deriving DecidableEq, Repr

def Ev.isBackoff : Ev → Bool
  | .backoff _ => true
  | _ => false

def Ev.isSleepOne : Ev → Bool
  | .sleepOne => true
  | _ => false

def Ev.isRequest : Ev → Bool
  | .request _ => true
  | _ => false

/-- One run of the `for attempt in range(max_retries)` loop body and its
continuations.  `remaining` is the number of loop iterations left
(`max_retries - attempt`), used as structural fuel; `remaining = 0` is the
loop falling off the end, where Python implicitly returns `None`.
Returns (result, event trace, number of requests issued). -/
def mrLoop (transport : Nat → ReqOutcome) (maxRetries : Nat) :
    Nat → Nat → Option BodyData → Nat → List Ev → Except ReqError String × List Ev × Nat
  | 0, _, _, reqCount, evs => (Except.error ReqError.implicitNone, evs, reqCount)
  | remaining + 1, attempt, data, reqCount, evs =>
      -- "human-like" inter-retry delay at the top of every non-first iteration
      let evs := if 0 < attempt then evs ++ [Ev.retryDelay] else evs
      match data with
      | some BodyData.rawBytes =>
          -- json.dumps(bytes) raises TypeError inside the try block
          if attempt < maxRetries - 1 then
            mrLoop transport maxRetries remaining (attempt + 1) (some BodyData.rawBytes)
              reqCount (evs ++ [Ev.sleepOne])
          else
            (Except.error ReqError.typeError, evs, reqCount)
      | _ =>
          -- body (if any) is serialized in place, then the request is issued
          let data' := data.map fun _ => BodyData.rawBytes
          let evs := evs ++ [Ev.request reqCount]
          match transport reqCount with
          | ReqOutcome.success payload => (Except.ok payload, evs, reqCount + 1)
          | ReqOutcome.httpError code =>
              if code = 403 ∧ attempt < maxRetries - 1 then
                mrLoop transport maxRetries remaining (attempt + 1) data' (reqCount + 1)
                  (evs ++ [Ev.backoff attempt])
              else
                -- `raise` in the HTTPError handler: no retry for non-403 codes
                (Except.error (ReqError.httpErr code), evs, reqCount + 1)
          | ReqOutcome.otherExc =>
              if attempt < maxRetries - 1 then
                mrLoop transport maxRetries remaining (attempt + 1) data' (reqCount + 1)
                  (evs ++ [Ev.sleepOne])
              else
                (Except.error ReqError.otherErr, evs, reqCount + 1)

def make_request (transport : Nat → ReqOutcome) (data : Option BodyData) :
    Except ReqError String × List Ev × Nat :=
  mrLoop transport 3 3 0 data 0 []

/-! ## `get_video_info` (lines 163–251)

The per-profile metadata request (`_make_request` + `json.loads`) is
abstracted as an oracle from the index of the issued request to either an
exception (`Except.error ()`) or a parsed player response. -/

structure Thumb where
  url : Option String := none
  deriving DecidableEq, Repr

structure ThumbPayload where
  thumbnails : Option (List Thumb) := none
  deriving DecidableEq, Repr

structure VideoDetails where
  title : Option String := none
  lengthSeconds : Option String := none
  author : Option String := none
  viewCount : Option String := none
  shortDescription : Option String := none
  thumbnail : Option ThumbPayload := none
  deriving DecidableEq, Repr

structure PlayabilityStatus where
  status : Option String := none
  reason : Option String := none
  deriving DecidableEq, Repr

structure StreamingData where
  formats : Option (List RawFormat) := none
  adaptiveFormats : Option (List RawFormat) := none
  deriving DecidableEq, Repr

structure PlayerResp where
  playabilityStatus : Option PlayabilityStatus := none
  videoDetails : Option VideoDetails := none
  streamingData : Option StreamingData := none
  deriving DecidableEq, Repr

structure Info where
  id : String
  title : String
  duration : String
  author : String
  viewCount : String
  description : String
  formats : List FormatRecord
  thumbnail : String
  deriving DecidableEq, Repr

inductive GviErr where
  /-- the explicit `{'error': f'Video not available: {reason}'}` return -/
  | videoNotAvailable (reason : String)
  /-- an exception caught by the outer handler (`{'error': str(e)}`) -/
  | exceptionErr
  deriving DecidableEq, Repr

/-- The client profiles, identified by `clientName`: the primary context then
the three fallbacks, in source order (lines 33–73 and 172). -/
def contextNames : List String :=
  ["ANDROID", "IOS", "ANDROID_EMBEDDED_PLAYER", "WEB"]

/-- `contexts_to_try[-1]`. -/
def lastContextName : String := "WEB"

/-- Post-loop construction of the `info` dict (lines 206–248).
`video_details.get('thumbnail', {}).get('thumbnails', [{}])[-1]` raises
`IndexError` when `thumbnails` is present but empty. -/
def buildInfo (videoId : String) (resp : PlayerResp) : Except GviErr Info :=
  let vd := resp.videoDetails.getD {}
  let sd := resp.streamingData.getD {}
  let ths := (vd.thumbnail.getD {}).thumbnails.getD [{}]
  match ths.getLast? with
  | none => Except.error GviErr.exceptionErr
  | some lastTh =>
      Except.ok
        { id := videoId
          title := vd.title.getD "Unknown"
          duration := vd.lengthSeconds.getD "0"
          author := vd.author.getD "Unknown"
          viewCount := vd.viewCount.getD "0"
          description := vd.shortDescription.getD ""
          formats := normalizeFormats (sd.formats.getD []) (sd.adaptiveFormats.getD [])
          thumbnail := lastTh.url.getD "" }

/-- The `for idx, context in enumerate(contexts_to_try)` loop (lines 174–204).
`prev` is the current value of the `player_response` variable (`none` while
unassigned); the result carries the total number of requests issued. -/
def gviLoop (transport : Nat → Except Unit PlayerResp) (videoId : String) :
    List String → Option PlayerResp → Nat → Except GviErr (Option PlayerResp) × Nat
  | [], prev, reqCount => (Except.ok prev, reqCount)
  | ctx :: rest, prev, reqCount =>
      let isLast := ctx == lastContextName
      match transport reqCount with
      | Except.error () =>
          if isLast then (Except.error GviErr.exceptionErr, reqCount + 1)
          else gviLoop transport videoId rest prev (reqCount + 1)
      | Except.ok resp =>
          match resp.playabilityStatus with
          | none => gviLoop transport videoId rest (some resp) (reqCount + 1)
          | some ps =>
              if ps.status == some "OK" then
                (Except.ok (some resp), reqCount + 1)
              else if ps.status == some "UNPLAYABLE" then
                gviLoop transport videoId rest (some resp) (reqCount + 1)
              else
                if isLast then
                  (Except.error (GviErr.videoNotAvailable (ps.reason.getD "Unknown error")),
                    reqCount + 1)
                else gviLoop transport videoId rest (some resp) (reqCount + 1)

/-- `get_video_info` (lines 163–251): extract the id, negotiate across the
profiles, then build the info dict from the final `player_response`.
An unbound `player_response` after the loop (impossible with the fixed
profile list) would be a `NameError`, modelled as the exception error. -/
def get_video_info (transport : Nat → Except Unit PlayerResp) (url : String) :
    Except GviErr Info × Nat :=
  match extract_video_id url with
  | none => (Except.error GviErr.exceptionErr, 0)
  | some videoId =>
      match gviLoop transport videoId contextNames none 0 with
      | (Except.error e, n) => (Except.error e, n)
      | (Except.ok none, n) => (Except.error GviErr.exceptionErr, n)
      | (Except.ok (some resp), n) => (buildInfo videoId resp, n)

/-! ## Format selection (inside `download_video`, lines 313–379)

Python `list.sort(key=k)` is a stable sort; `reverse=True` gives a stable
descending sort.  Both are modelled with `List.mergeSort`, which is stable. -/

/-- Stable ascending sort by an integer key (`list.sort(key=k)`). -/
def sortAscBy (k : FormatRecord → Int) (l : List FormatRecord) : List FormatRecord :=
  l.mergeSort (fun a b => k a ≤ k b)

/-- Stable descending sort by an integer key (`list.sort(key=k, reverse=True)`). -/
def sortDescBy (k : FormatRecord → Int) (l : List FormatRecord) : List FormatRecord :=
  l.mergeSort (fun a b => k b ≤ k a)

inductive SelErr where
  /-- `'No audio-only formats found'` -/
  | noAudioFormat
  /-- `'Invalid quality format: ...'` (ValueError from `int`) -/
  | invalidQualityFormat (q : String)
  /-- `'Invalid quality: ...'` (neither best/worst nor `*p`) -/
  | invalidQuality (q : String)
  /-- `'No suitable video format found'` -/
  | noSuitableVideo
  /-- the `TypeError` raised by comparing a `None` sort key with an `int`
  (caught by the outer `except`, surfacing as an error dict) -/
  | bitrateTypeError
  deriving DecidableEq, Repr

/-- `audio_formats.sort(key=lambda x: x.get('bitrate', 0), reverse=True)`
(line 318) on records whose `'bitrate'` key is always bound — possibly to
`None` — because audio-only records come only from the adaptive loop
(line 234): the key is the stored value, not 0.  CPython's sort compares
every element at least once when the list has two or more elements, and any
comparison involving `None` raises `TypeError`; with every key an integer it
is a stable descending sort (a one-element list is never compared, so a lone
`None` key is harmless). -/
def pySortDescOptKey (k : FormatRecord → Option Nat) (l : List FormatRecord) :
    Except Unit (List FormatRecord) :=
  if 2 ≤ l.length ∧ l.any fun f => (k f).isNone then
    Except.error ()
  else
    Except.ok (sortDescBy (fun f => (((k f).getD 0 : Nat) : Int)) l)

/-- Audio-only selection (lines 313–319): filter to `hasAudio and not hasVideo`,
error if empty, else sort descending by the bitrate key and take the head; a
`TypeError` from the sort propagates to the outer `except`. -/
def selectAudioOnly (formats : List FormatRecord) : Except SelErr FormatRecord :=
  let audioFormats := formats.filter fun f => f.hasAudio && !f.hasVideo
  if audioFormats.isEmpty then
    Except.error SelErr.noAudioFormat
  else
    match pySortDescOptKey FormatRecord.bitrate audioFormats with
    | Except.error () => Except.error SelErr.bitrateTypeError
    | Except.ok sorted =>
        match sorted.head? with
        | some f => Except.ok f
        | none => Except.error SelErr.noAudioFormat

/-- `quality.endswith('p')` for the single-character suffix. -/
def endsWithP (q : String) : Bool :=
  q.toList.getLast? == some 'p'

/-- Video-format selection by quality (lines 354–379), over
`video_formats = [f for f in formats if f.get('hasVideo')]`.
Returns the selected record and whether the "using closest" notice was
emitted; `none` from the sorts' `head?` corresponds to the
`'No suitable video format found'` error. -/
def selectVideo (quality : String) (videoFormats : List FormatRecord) :
    Except SelErr (FormatRecord × Bool) :=
  if quality == "best" then
    match (sortDescBy get_resolution videoFormats).head? with
    | some f => Except.ok (f, false)
    | none => Except.error SelErr.noSuitableVideo
  else if quality == "worst" then
    match (sortAscBy get_resolution videoFormats).head? with
    | some f => Except.ok (f, false)
    | none => Except.error SelErr.noSuitableVideo
  else if endsWithP quality then
    match pyInt (removeAllP quality) with
    | none => Except.error (SelErr.invalidQualityFormat quality)
    | some targetRes =>
        match (videoFormats.filter fun f => get_resolution f == targetRes).head? with
        | some f => Except.ok (f, false)
        | none =>
            match (sortAscBy (fun f => ((get_resolution f - targetRes).natAbs : Int))
                videoFormats).head? with
            | some f => Except.ok (f, true)
            | none => Except.error SelErr.noSuitableVideo
  else
    Except.error (SelErr.invalidQuality quality)

/-! ## Filename sanitization (lines 309–310)

```python
safe_title = re.sub(r'[^\w\s-]', '', info['title'])
safe_title = re.sub(r'[-\s]+', '_', safe_title)[:100]
```
-/

/-- First substitution: delete every character outside `[\w\s-]`. -/
def stripDisallowed (cs : List Char) : List Char :=
  cs.filter fun c => isWordChar c || isSpaceChar c || c == '-'

/-- Second substitution: replace every maximal run of `[-\s]` by one `_`.
The flag records whether the previous character belonged to a run. -/
def collapseAux : Bool → List Char → List Char
  | _, [] => []
  | inRun, c :: rest =>
      if isSpaceHyphen c then
        if inRun then collapseAux true rest
        else '_' :: collapseAux true rest
      else c :: collapseAux false rest

def collapseRuns (cs : List Char) : List Char :=
  collapseAux false cs

def sanitize_title (title : String) : String :=
  String.mk ((collapseRuns (stripDisallowed title.toList)).take 100)

/-- `f"{safe_title}_{info['id']}.{extension}"`. -/
def outputFilename (title videoId ext : String) : String :=
  sanitize_title title ++ "_" ++ videoId ++ "." ++ ext

/-! ## Stream fetch and merge orchestration (lines 253–282 and 396–472)

`_download_stream` opens the destination with `open(filepath, 'wb')` *after*
`urlopen` succeeds and writes chunk by chunk, so a transfer can fail before
the file is created or after it is partially written; there is no cleanup of
the destination inside `_download_stream`.  The merge path pre-creates two
temporary files and deletes them in a `finally` block. -/

inductive DlOutcome where
  /-- `urlopen` (or the first read) raised before `open(filepath, 'wb')` ran -/
  | failBeforeOpen
  /-- a chunk read/write raised after the file was created -/
  | failDuring
  | ok
  deriving DecidableEq, Repr

inductive FileState where
  | absent
  | partialFile
  | complete
  deriving DecidableEq, Repr

/-- Effect of `_download_stream` on a destination that does not yet exist:
whether it raised, and the resulting state of the destination file. -/
def downloadStreamEffect : DlOutcome → Except Unit Unit × FileState
  | .failBeforeOpen => (Except.error (), FileState.absent)
  | .failDuring => (Except.error (), FileState.partialFile)
  | .ok => (Except.ok (), FileState.complete)

inductive FetchOutcome where
  /-- a `{'success': True, ...}` dict, with its `merged` flag when present -/
  | successDict (merged : Option Bool)
  /-- an `{'error': ...}` dict (explicit return or caught exception) -/
  | errorDict
  deriving DecidableEq, Repr

/-- Filesystem snapshot for the merge path: existence of the two temporary
files and the state of the final output file. -/
structure MergeFS where
  videoTemp : Bool
  audioTemp : Bool
  output : FileState
  deriving DecidableEq, Repr

/-- `try ... finally fin`: the finally action runs on the state regardless of
whether the body returned a value or raised, and the body's outcome is
propagated. -/
def runTryFinally {E A : Type} (body : MergeFS → Except E A × MergeFS)
    (fin : MergeFS → MergeFS) (s : MergeFS) : Except E A × MergeFS :=
  let (r, s') := body s
  (r, fin s')

/-- The `try` block of the merge path (lines 402–440): download video, then
audio, then run ffmpeg (whose effect on the output file and exit code are
oracle inputs, since the tool is external). -/
def mergeBody (dlVideo dlAudio : DlOutcome) (ffmpegExit : Nat) (ffmpegOut : FileState)
    (s : MergeFS) : Except Unit FetchOutcome × MergeFS :=
  match (downloadStreamEffect dlVideo).1 with
  | Except.error () => (Except.error (), s)
  | Except.ok () =>
      match (downloadStreamEffect dlAudio).1 with
      | Except.error () => (Except.error (), s)
      | Except.ok () =>
          let s := { s with output := ffmpegOut }
          if ffmpegExit ≠ 0 then
            (Except.ok FetchOutcome.errorDict, s)
          else
            (Except.ok (FetchOutcome.successDict (some true)), s)

/-- The `finally` block (lines 442–447): unlink each temp file if it exists. -/
def cleanupTemps (s : MergeFS) : MergeFS :=
  { s with videoTemp := false, audioTemp := false }

/-- The dual-stream merge path of `download_video` (lines 396–447): create the
two temporary files, run the try/finally, and let the outer `except` turn an
exception into an error dict. -/
def download_merge_path (dlVideo dlAudio : DlOutcome) (ffmpegExit : Nat)
    (ffmpegOut : FileState) : FetchOutcome × MergeFS :=
  let s0 : MergeFS := { videoTemp := true, audioTemp := true, output := FileState.absent }
  match runTryFinally (mergeBody dlVideo dlAudio ffmpegExit ffmpegOut) cleanupTemps s0 with
  | (Except.error (), s) => (FetchOutcome.errorDict, s)
  | (Except.ok r, s) => (r, s)

/-- The single-stream path of `download_video` (lines 449–472, and the
audio-only path 313–337): `_download_stream` writes directly to the final
path; a raised exception reaches the outer `except` with no cleanup. -/
def download_single_path (dl : DlOutcome) (merged : Option Bool) :
    FetchOutcome × FileState :=
  match downloadStreamEffect dl with
  | (Except.error (), st) => (FetchOutcome.errorDict, st)
  | (Except.ok (), st) => (FetchOutcome.successDict merged, st)

/-! ## Spec-side definitions and concrete scenario inputs -/

/-- The spec's claimed pattern for a numeric quality label: one or more digits
followed by the literal letter `p`.  (The source's actual parse is
`get_resolution`; this definition follows the spec's words, for comparison.) -/
def specDigitsThenP (s : String) : Bool :=
  (s.toList.getLast? == some 'p') && !s.toList.dropLast.isEmpty &&
    s.toList.dropLast.all isDigitChar

/-- A transport returning HTTP 403 on the first two attempts and succeeding on
the third (the spec's retry-budget scenario). -/
def stub403s : Nat → ReqOutcome := fun i =>
  if i < 2 then ReqOutcome.httpError 403 else ReqOutcome.success "payload"

/-- A transport whose first response is HTTP 500 and which would succeed on
any later attempt. -/
def stub500 : Nat → ReqOutcome := fun i =>
  if i = 0 then ReqOutcome.httpError 500 else ReqOutcome.success "ok"

/-- Whether a profile-level response parses with playability status `OK`. -/
def isOkResponse : Except Unit PlayerResp → Bool
  | Except.error () => false
  | Except.ok resp =>
      match resp.playabilityStatus with
      | none => false
      | some ps => ps.status == some "OK"

/-- The audio-only scenario catalog: bitrates 128000, 320000, 64000. -/
def audioCat : List FormatRecord :=
  [ { hasAudio := true, bitrate := some 128000 },
    { hasAudio := true, bitrate := some 320000 },
    { hasAudio := true, bitrate := some 64000 } ]

/-- The quality-matching scenario catalog: 360p/480p/720p/1080p video records. -/
def videoCat : List FormatRecord :=
  [ { hasVideo := true, quality := some "360p" },
    { hasVideo := true, quality := some "480p" },
    { hasVideo := true, quality := some "720p" },
    { hasVideo := true, quality := some "1080p" } ]

/-! # Helper lemmas -/

theorem digit_ne_dash {c : Char} (h : isDigitChar c = true) : c ≠ '-' := by
  intro e; subst e; exact absurd h (by decide)

theorem digit_ne_plus {c : Char} (h : isDigitChar c = true) : c ≠ '+' := by
  intro e; subst e; exact absurd h (by decide)

theorem digit_ne_p {c : Char} (h : isDigitChar c = true) : c ≠ 'p' := by
  intro e; subst e; exact absurd h (by decide)

theorem pyIntChars_digits {cs : List Char} (hne : cs ≠ []) (hd : cs.all isDigitChar = true) :
    pyIntChars cs = some ((digitsToNat cs : Nat) : Int) := by
  cases cs with
  | nil => exact absurd rfl hne
  | cons c rest =>
      have hc : isDigitChar c = true := List.all_eq_true.mp hd c (by simp)
      simp [pyIntChars, digit_ne_dash hc, digit_ne_plus hc, hd]

theorem word_not_spaceHyphen {c : Char} (h : isWordChar c = true) :
    isSpaceHyphen c = false := by
  cases hs : isSpaceHyphen c with
  | false => rfl
  | true =>
      exfalso
      simp only [isSpaceHyphen, isSpaceChar, Bool.or_eq_true, beq_iff_eq] at hs
      rcases hs with ((((((e | e) | e) | e) | e) | e) | e) <;>
        (subst e; exact absurd h (by decide))

/-! # C4: resolution ranking of quality labels -/

/-- C4 counterexample: the label `"720p60"` does not match the claimed
digits-then-`p` pattern, yet `get_resolution` ranks it `72060`, not `0`:
`int(quality_str.replace('p', ''))` removes **every** `p`, so `"720p60"`
becomes `"72060"` and parses. -/
theorem c4_resolution_counterexample :
    specDigitsThenP "720p60" = false ∧
    get_resolution { quality := some "720p60" } = 72060 ∧
    ¬ get_resolution { quality := some "720p60" } = 0 := by
  refine ⟨by decide, by decide, by decide⟩

/-- C4 (amended): a label matching digits-then-`p` ranks as its digits; but in
general the label ranks as `int` of the label with **all** `p`s removed when
that parses, and ranks 0 exactly when the label has no `p`, the `p`-stripped
remainder does not parse, or the label is missing. -/
theorem c4_resolution_ranking :
    (∀ s : String, specDigitsThenP s = true →
       get_resolution { quality := some s } = (digitsToNat s.toList.dropLast : Int)) ∧
    (∀ (s : String) (n : Int), 'p' ∈ s.toList → pyInt (removeAllP s) = some n →
       get_resolution { quality := some s } = n) ∧
    (∀ s : String, 'p' ∉ s.toList → get_resolution { quality := some s } = 0) ∧
    (∀ s : String, pyInt (removeAllP s) = none → get_resolution { quality := some s } = 0) ∧
    get_resolution { quality := none } = 0 := by
  refine ⟨?_, ?_, ?_, ?_, rfl⟩
  · intro s hs
    simp only [specDigitsThenP, Bool.and_eq_true, beq_iff_eq] at hs
    obtain ⟨⟨hlast, hne⟩, hdig⟩ := hs
    obtain ⟨l', hsl⟩ := List.getLast?_eq_some_iff.mp hlast
    have hds : s.toList.dropLast = l' := by rw [hsl]; exact List.dropLast_concat
    have hne' : l' ≠ [] := by
      rw [hds] at hne
      intro e; subst e; exact absurd hne (by decide)
    have hdig' : l'.all isDigitChar = true := by rw [hds] at hdig; exact hdig
    have hp : 'p' ∈ s.toList := by rw [hsl]; exact List.mem_append_right _ (by simp)
    have hfilter : s.toList.filter (fun c => decide (c ≠ 'p')) = l' := by
      have hl : l'.filter (fun c => decide (c ≠ 'p')) = l' :=
        List.filter_eq_self.mpr fun c hc => by
          simpa using digit_ne_p (List.all_eq_true.mp hdig' c hc)
      rw [hsl, List.filter_append, hl,
        show List.filter (fun c => decide (c ≠ 'p')) ['p'] = [] from rfl, List.append_nil]
    have hparse : pyInt (removeAllP s) = some ((digitsToNat l' : Nat) : Int) := by
      have hrfl : pyInt (removeAllP s) =
          pyIntChars (s.toList.filter (fun c => decide (c ≠ 'p'))) := rfl
      rw [hrfl, hfilter, pyIntChars_digits hne' hdig']
    have hp2 : 'p' ∈ s.data := hp
    have hds2 : s.data.dropLast = l' := hds
    simp [get_resolution, hp2, hparse, hds2]
  · intro s n hp hparse
    have hp2 : 'p' ∈ s.data := hp
    simp [get_resolution, hp2, hparse]
  · intro s hp
    have hp2 : 'p' ∉ s.data := hp
    simp [get_resolution, hp2]
  · intro s hparse
    by_cases hp : 'p' ∈ s.data
    · simp [get_resolution, hp, hparse]
    · simp [get_resolution, hp]

/-- C4 witness: the amended ranking rules evaluated at `"720p"` (digits-then-`p`,
ranks 720) and `"medium"` (no `p`, ranks 0). -/
theorem c4_resolution_ranking_witness :
    get_resolution { quality := some "720p" } =
      ((digitsToNat "720p".toList.dropLast : Nat) : Int) ∧
    get_resolution { quality := some "medium" } = 0 :=
  ⟨c4_resolution_ranking.1 "720p" (by decide),
   c4_resolution_ranking.2.2.1 "medium" (by decide)⟩

/-! # C8: filename sanitization -/

theorem underscore_is_word : isWordChar '_' = true := by decide

theorem collapseAux_word {cs : List Char}
    (h : ∀ c ∈ cs, (isWordChar c || isSpaceChar c || c == '-') = true) :
    ∀ b, ∀ c ∈ collapseAux b cs, isWordChar c = true := by
  induction cs with
  | nil => intro b c hc; simp [collapseAux] at hc
  | cons a rest ih =>
      intro b c hc
      have ha := h a (by simp)
      have hrest : ∀ c ∈ rest, (isWordChar c || isSpaceChar c || c == '-') = true :=
        fun c hc => h c (List.mem_cons_of_mem _ hc)
      by_cases hsp : isSpaceHyphen a = true
      · cases b with
        | true =>
            simp only [collapseAux, hsp, if_true] at hc
            exact ih hrest true c hc
        | false =>
            simp only [collapseAux, hsp, if_true] at hc
            rcases List.mem_cons.mp hc with rfl | hc
            · exact underscore_is_word
            · exact ih hrest true c hc
      · have hsp' : isSpaceHyphen a = false := by
          cases hq : isSpaceHyphen a
          · rfl
          · exact absurd hq hsp
        simp only [collapseAux, hsp', Bool.false_eq_true, if_false] at hc
        rcases List.mem_cons.mp hc with rfl | hc
        · -- a survives the collapse, hence is not in `[-\s]`, hence is a word char
          rcases Bool.or_eq_true_iff.mp ha with h1 | h2
          · rcases Bool.or_eq_true_iff.mp h1 with h1a | h1b
            · exact h1a
            · exact absurd (by simp [isSpaceHyphen, h1b]) hsp
          · exact absurd (by simp [isSpaceHyphen, h2]) hsp
        · exact ih hrest false c hc

theorem collapseAux_id {cs : List Char} (h : ∀ c ∈ cs, isSpaceHyphen c = false) :
    ∀ b, collapseAux b cs = cs := by
  induction cs with
  | nil => intro b; rfl
  | cons a rest ih =>
      intro b
      have ha := h a (by simp)
      simp only [collapseAux, ha, Bool.false_eq_true, if_false]
      rw [ih fun c hc => h c (List.mem_cons_of_mem _ hc)]

/-- Every character of a sanitized title is a word character (`[0-9A-Za-z_]`). -/
theorem sanitize_title_wordChars (t : String) :
    ∀ c ∈ (sanitize_title t).toList, isWordChar c = true := by
  intro c hc
  have hc' : c ∈ collapseRuns (stripDisallowed t.toList) :=
    List.mem_of_mem_take hc
  refine collapseAux_word ?_ false c hc'
  intro d hd
  exact (List.mem_filter.mp hd).2

/-- C8 counterexample: the title `"a__b"` sanitizes to itself, whose output
contains a run of two underscores (`\w` keeps underscores and the second
substitution only collapses `[-\s]+` runs), contradicting both "strips
characters that are not alphanumeric, whitespace, or hyphen" and "single
underscores". -/
theorem c8_sanitize_counterexample :
    sanitize_title "a__b" = "a__b" ∧
    containsSub "__".toList (sanitize_title "a__b").toList = true := by
  refine ⟨by decide, by decide⟩

/-- C8 (amended): sanitization strips characters outside `[\w\s-]` (word
characters — including underscore — whitespace, hyphen), collapses every
`[-\s]+` run to one underscore, truncates to 100 characters; the result
contains only word characters (pre-existing underscore runs survive), has
length at most 100 before the `_<videoId>.<ext>` suffix, and is idempotent. -/
theorem c8_sanitize_properties :
    (∀ t : String, ∀ c ∈ (sanitize_title t).toList, isWordChar c = true) ∧
    (∀ t : String, (sanitize_title t).toList.length ≤ 100) ∧
    (∀ t : String, sanitize_title (sanitize_title t) = sanitize_title t) := by
  refine ⟨sanitize_title_wordChars, ?_, ?_⟩
  · intro t
    have : ((collapseRuns (stripDisallowed t.toList)).take 100).length ≤ 100 := by
      simp [List.length_take]
    exact this
  · intro t
    have hword := sanitize_title_wordChars t
    set l := (sanitize_title t).toList with hl
    have hstrip : stripDisallowed l = l :=
      List.filter_eq_self.mpr fun c hc => by simp [hword c hc]
    have hcoll : collapseRuns l = l :=
      collapseAux_id (fun c hc => word_not_spaceHyphen (hword c hc)) false
    have hlen : l.length ≤ 100 := by
      rw [hl]
      show ((collapseRuns (stripDisallowed t.toList)).take 100).length ≤ 100
      simp [List.length_take]
    have : sanitize_title (sanitize_title t) =
        String.mk ((collapseRuns (stripDisallowed l)).take 100) := rfl
    rw [this, hstrip, hcoll, List.take_of_length_le hlen]
    cases ht : sanitize_title t
    simp [hl, ht, String.toList]

/-- C8 witness: the word-character property discharged at a concrete title and
character, together with idempotence at the same title. -/
theorem c8_sanitize_properties_witness :
    isWordChar 'H' = true ∧
    sanitize_title (sanitize_title "Hello, World!") = sanitize_title "Hello, World!" :=
  ⟨c8_sanitize_properties.1 "Hello, World!" 'H' (by decide),
   c8_sanitize_properties.2.2 "Hello, World!"⟩

/-! # C7: no-partial-success and temp-file cleanup -/

/-- C7 counterexample: a single-stream fetch whose transfer fails after the
output file was opened returns an error dict yet leaves a partial file at the
final path, so a fetch call does not "produce exactly one complete, correctly
named output file or none". -/
theorem c7_fetch_counterexample :
    download_single_path DlOutcome.failDuring (some false) =
      (FetchOutcome.errorDict, FileState.partialFile) ∧
    FileState.partialFile ≠ FileState.absent := by
  refine ⟨rfl, by decide⟩

/-- C7 (amended): in the dual-stream merge path both temporary files are
deleted on every exit path — download failures, a non-zero merge-tool exit,
and success alike; a single-stream fetch produces a complete output file
exactly when it reports success, but a failed transfer may leave a partial
file at the final path. -/
theorem c7_cleanup :
    (∀ (dlV dlA : DlOutcome) (ffExit : Nat) (ffOut : FileState),
       (download_merge_path dlV dlA ffExit ffOut).2.videoTemp = false ∧
       (download_merge_path dlV dlA ffExit ffOut).2.audioTemp = false) ∧
    (∀ (dl : DlOutcome) (m : Option Bool),
       (download_single_path dl m).2 = FileState.complete ↔
       (download_single_path dl m).1 = FetchOutcome.successDict m) := by
  constructor
  · intro dlV dlA ffExit ffOut
    cases dlV <;> cases dlA <;>
      by_cases h : ffExit = 0 <;>
      simp [download_merge_path, runTryFinally, mergeBody, downloadStreamEffect,
        cleanupTemps, h]
  · intro dl m
    cases dl <;> simp [download_single_path, downloadStreamEffect]

/-! # C1: the retrying transport -/

theorem mrLoop_reqCount_le (t : Nat → ReqOutcome) (mr : Nat) :
    ∀ (rem att : Nat) (d : Option BodyData) (rc : Nat) (evs : List Ev),
      (mrLoop t mr rem att d rc evs).2.2 ≤ rc + rem := by
  intro rem
  induction rem with
  | zero => intro att d rc evs; simp [mrLoop]
  | succ n ih =>
      intro att d rc evs
      simp only [mrLoop]
      repeat' split
      all_goals
        first
        | exact le_trans (ih _ _ _ _) (by omega)
        | (simp only []; omega)

/-- C1 counterexample: the claim's "on any other exception with attempts
remaining it sleeps 1 time unit and retries" fails for a non-403 HTTP error:
with a transport whose first response is HTTP 500 (and which would succeed on
any retry), the code issues exactly one request, performs no sleep at all,
and propagates the 500 instead of retrying to the success. -/
theorem c1_retry_counterexample :
    make_request stub500 none =
      (Except.error (ReqError.httpErr 500), [Ev.request 0], 1) ∧
    (make_request stub500 none).1 ≠ Except.ok "ok" := by
  have h1 : make_request stub500 none =
      (Except.error (ReqError.httpErr 500), [Ev.request 0], 1) := rfl
  refine ⟨h1, ?_⟩
  rw [h1]
  simp

/-- C1 (amended): at most 3 attempts / 3 issued requests per call; HTTP 403
with attempts remaining backs off `2^attempt + uniform(0,1)` and retries
(scenario: 403, 403, success yields exactly the two backoff sleeps of
attempts 0 and 1 and returns the payload); a non-HTTP exception with attempts
remaining sleeps 1 and retries; on the final attempt the error propagates
un-retried; but an HTTP error with a status other than 403 propagates
immediately, without retry, even with attempts remaining. -/
theorem c1_retry_transport :
    (∀ (t : Nat → ReqOutcome) (d : Option BodyData), (make_request t d).2.2 ≤ 3) ∧
    (make_request stub403s none).1 = Except.ok "payload" ∧
    ((make_request stub403s none).2.1.filter Ev.isBackoff) = [Ev.backoff 0, Ev.backoff 1] ∧
    (make_request (fun _ => ReqOutcome.httpError 403) none =
      (Except.error (ReqError.httpErr 403),
       [Ev.request 0, Ev.backoff 0, Ev.retryDelay, Ev.request 1, Ev.backoff 1,
        Ev.retryDelay, Ev.request 2], 3)) ∧
    (make_request (fun _ => ReqOutcome.otherExc) none =
      (Except.error ReqError.otherErr,
       [Ev.request 0, Ev.sleepOne, Ev.retryDelay, Ev.request 1, Ev.sleepOne,
        Ev.retryDelay, Ev.request 2], 3)) ∧
    (∀ (t : Nat → ReqOutcome) (code : Nat), code ≠ 403 →
       t 0 = ReqOutcome.httpError code →
       make_request t none = (Except.error (ReqError.httpErr code), [Ev.request 0], 1)) := by
  refine ⟨?_, rfl, rfl, rfl, rfl, ?_⟩
  · intro t d
    exact le_trans (mrLoop_reqCount_le t 3 3 0 d 0 []) (by omega)
  · intro t code hcode h0
    simp [make_request, mrLoop, h0, hcode]

/-- C1 witness: the immediate-propagation rule discharged at the concrete
HTTP-500 transport, plus the attempt bound at it. -/
theorem c1_retry_transport_witness :
    make_request stub500 none =
      (Except.error (ReqError.httpErr 500), [Ev.request 0], 1) ∧
    (make_request stub500 none).2.2 ≤ 3 :=
  ⟨c1_retry_transport.2.2.2.2.2 stub500 500 (by decide) rfl,
   c1_retry_transport.1 stub500 none⟩

/-! # C10: the bodied-request serialization bug -/

theorem mrLoop_rawBytes_reqCount (t : Nat → ReqOutcome) (mr : Nat) :
    ∀ (rem att rc : Nat) (evs : List Ev),
      (mrLoop t mr rem att (some BodyData.rawBytes) rc evs).2.2 = rc := by
  intro rem
  induction rem with
  | zero => intro att rc evs; simp [mrLoop]
  | succ n ih =>
      intro att rc evs
      simp only [mrLoop]
      split
      · exact ih _ _ _
      · rfl

/-- C10: when a JSON body is supplied, it is serialized in place on the first
iteration, so every retry raises `TypeError` on `json.dumps(bytes)` before
reaching the network: exactly one request is ever issued; a first-attempt
success returns the payload; a first-attempt 403 backs off once and then
fails with `TypeError` twice (one `sleep(1)` retry), exhausting the budget;
so does a first-attempt non-HTTP exception. -/
theorem c10_bodied_request :
    (∀ t : Nat → ReqOutcome, (make_request t (some BodyData.jsonDict)).2.2 = 1) ∧
    (∀ (t : Nat → ReqOutcome) (p : String), t 0 = ReqOutcome.success p →
       make_request t (some BodyData.jsonDict) = (Except.ok p, [Ev.request 0], 1)) ∧
    (∀ t : Nat → ReqOutcome, t 0 = ReqOutcome.httpError 403 →
       make_request t (some BodyData.jsonDict) =
         (Except.error ReqError.typeError,
          [Ev.request 0, Ev.backoff 0, Ev.retryDelay, Ev.sleepOne, Ev.retryDelay], 1)) ∧
    (∀ t : Nat → ReqOutcome, t 0 = ReqOutcome.otherExc →
       make_request t (some BodyData.jsonDict) =
         (Except.error ReqError.typeError,
          [Ev.request 0, Ev.sleepOne, Ev.retryDelay, Ev.sleepOne, Ev.retryDelay], 1)) := by
  refine ⟨?_, ?_, ?_, ?_⟩
  · intro t
    simp only [make_request, mrLoop]
    split
    · rfl
    · split
      · exact mrLoop_rawBytes_reqCount t 3 2 1 1 _
      · rfl
    · split
      · exact mrLoop_rawBytes_reqCount t 3 2 1 1 _
      · rfl
  · intro t p h0
    simp [make_request, mrLoop, h0]
  · intro t h0
    simp [make_request, mrLoop, h0]
  · intro t h0
    simp [make_request, mrLoop, h0]

/-- C10 witness: the TypeError-on-retry behaviour discharged at the concrete
always-403 transport. -/
theorem c10_bodied_request_witness :
    make_request (fun _ => ReqOutcome.httpError 403) (some BodyData.jsonDict) =
      (Except.error ReqError.typeError,
       [Ev.request 0, Ev.backoff 0, Ev.retryDelay, Ev.sleepOne, Ev.retryDelay], 1) :=
  c10_bodied_request.2.2.1 (fun _ => ReqOutcome.httpError 403) rfl

/-! # C9: URL-to-ID extraction -/

theorem grabId_all {cs : List Char} (h : cs.all isIdChar = true) :
    grabId cs.length cs = some (cs, []) := by
  induction cs with
  | nil => rfl
  | cons c rest ih =>
      simp only [List.all_cons, Bool.and_eq_true] at h
      simp only [List.length_cons, grabId, h.1, if_true]
      rw [ih h.2]
      rfl

theorem pat1At_none {cs : List Char} (h : ∀ c ∈ cs, isIdChar c = true) :
    pat1At cs = none := by
  unfold pat1At
  split
  · exact absurd (h '=' (by simp)) (by decide)
  · exact absurd (h '/' (by simp)) (by decide)
  · rfl

theorem pat2At_none {cs : List Char} (h : ∀ c ∈ cs, isIdChar c = true) :
    pat2At cs = none := by
  unfold pat2At
  split
  · exact absurd (h '/' (by simp)) (by decide)
  · rfl

theorem search1_none {cs : List Char} (h : ∀ c ∈ cs, isIdChar c = true) :
    search1 cs = none := by
  induction cs with
  | nil => rfl
  | cons c rest ih =>
      have hp : pat1At (c :: rest) = none := pat1At_none h
      simp only [search1, hp]
      exact ih fun d hd => h d (List.mem_cons_of_mem _ hd)

theorem search2_none {cs : List Char} (h : ∀ c ∈ cs, isIdChar c = true) :
    search2 cs = none := by
  induction cs with
  | nil => rfl
  | cons c rest ih =>
      have hp : pat2At (c :: rest) = none := pat2At_none h
      simp only [search2, hp]
      exact ih fun d hd => h d (List.mem_cons_of_mem _ hd)

/-- C9: extraction is total and idempotent on bare 11-character identifiers
over `[0-9A-Za-z_-]` (the first two regexes cannot match, since the allowed
characters exclude `/` and `=`, and the anchored third matches the whole
string); and extraction fails exactly when none of the three patterns
matches. -/
theorem c9_extract_id :
    (∀ s : String, s.toList.length = 11 → (∀ c ∈ s.toList, isIdChar c = true) →
       extract_video_id s = some s) ∧
    (∀ s : String, extract_video_id s = none ↔
       (search1 s.toList = none ∧ search2 s.toList = none ∧ pat3 s.toList = none)) := by
  constructor
  · intro s hlen hchars
    have h1 : search1 s.toList = none := search1_none hchars
    have h2 : search2 s.toList = none := search2_none hchars
    have h3 : pat3 s.toList = some s.toList := by
      unfold pat3
      have hall : s.toList.all isIdChar = true :=
        List.all_eq_true.mpr fun c hc => hchars c hc
      rw [← hlen, grabId_all hall]
    rw [show extract_video_id s =
          (match search1 s.toList with
           | some g => some (String.mk g)
           | none =>
               match search2 s.toList with
               | some g => some (String.mk g)
               | none =>
                   match pat3 s.toList with
                   | some g => some (String.mk g)
                   | none => none) from rfl,
      h1, h2, h3]
    rfl
  · intro s
    unfold extract_video_id
    cases h1 : search1 s.toList <;> cases h2 : search2 s.toList <;>
      cases h3 : pat3 s.toList <;> simp [h1, h2, h3]

/-- C9 witness: extraction at the spec's example identifier. -/
theorem c9_extract_id_witness :
    extract_video_id "dQw4w9WgXcQ" = some "dQw4w9WgXcQ" :=
  c9_extract_id.1 "dQw4w9WgXcQ" (by decide) (by decide)

/-! # C3 and C6: format selection -/

theorem sortAscBy_head_min {k : FormatRecord → Int} {l : List FormatRecord}
    {f : FormatRecord} (h : (sortAscBy k l).head? = some f) :
    f ∈ l ∧ ∀ g ∈ l, k f ≤ k g := by
  have hperm : (sortAscBy k l).Perm l := List.mergeSort_perm l _
  have hsorted : (sortAscBy k l).Pairwise (fun a b => decide (k a ≤ k b) = true) :=
    List.sorted_mergeSort
      (fun a b c hab hbc => by
        simp only [decide_eq_true_eq] at *
        exact le_trans hab hbc)
      (fun a b => by simpa using Int.le_total (k a) (k b)) l
  cases hs : sortAscBy k l with
  | nil => rw [hs] at h; exact absurd h (by simp)
  | cons f0 tl =>
      rw [hs] at h
      have hf : f0 = f := by simpa using h
      subst hf
      rw [hs] at hperm hsorted
      constructor
      · exact hperm.mem_iff.mp (by simp)
      · intro g hg
        rcases List.mem_cons.mp (hperm.mem_iff.mpr hg) with rfl | hg'
        · exact le_refl _
        · exact of_decide_eq_true ((List.pairwise_cons.mp hsorted).1 g hg')

theorem sortDescBy_head_max {k : FormatRecord → Int} {l : List FormatRecord}
    {f : FormatRecord} (h : (sortDescBy k l).head? = some f) :
    f ∈ l ∧ ∀ g ∈ l, k g ≤ k f := by
  have hperm : (sortDescBy k l).Perm l := List.mergeSort_perm l _
  have hsorted : (sortDescBy k l).Pairwise (fun a b => decide (k b ≤ k a) = true) :=
    List.sorted_mergeSort
      (fun a b c hab hbc => by
        simp only [decide_eq_true_eq] at *
        exact le_trans hbc hab)
      (fun a b => by simpa using Int.le_total (k b) (k a)) l
  cases hs : sortDescBy k l with
  | nil => rw [hs] at h; exact absurd h (by simp)
  | cons f0 tl =>
      rw [hs] at h
      have hf : f0 = f := by simpa using h
      subst hf
      rw [hs] at hperm hsorted
      constructor
      · exact hperm.mem_iff.mp (by simp)
      · intro g hg
        rcases List.mem_cons.mp (hperm.mem_iff.mpr hg) with rfl | hg'
        · exact le_refl _
        · exact of_decide_eq_true ((List.pairwise_cons.mp hsorted).1 g hg')

theorem mergeSort_head?_isSome {le : FormatRecord → FormatRecord → Bool}
    {l : List FormatRecord} (h : l ≠ []) : (l.mergeSort le).head? ≠ none := by
  have hperm : (l.mergeSort le).Perm l := List.mergeSort_perm l le
  cases hs : l.mergeSort le with
  | nil =>
      rw [hs] at hperm
      exact absurd hperm.symm.eq_nil h
  | cons a tl => simp

/-- C3 counterexample: with two audio-only candidates of which one lacks a
bitrate, the claim's "absent bitrate treated as 0" predicts the 128000 record
is selected; but audio-only records always bind the `'bitrate'` key (the
adaptive loop writes `fmt.get('bitrate')`, i.e. `None` when absent), so the
sort key of the second record is `None`, the sort raises `TypeError`, and the
call returns an error dict instead of a selection. -/
theorem c3_audio_counterexample :
    selectAudioOnly
      [ { hasAudio := true, bitrate := some 128000 },
        { hasAudio := true, bitrate := none } ] =
      Except.error SelErr.bitrateTypeError ∧
    selectAudioOnly
      [ { hasAudio := true, bitrate := some 128000 },
        { hasAudio := true, bitrate := none } ] ≠
      Except.ok { hasAudio := true, bitrate := some 128000 } := by
  have h1 : selectAudioOnly
      [ { hasAudio := true, bitrate := some 128000 },
        { hasAudio := true, bitrate := none } ] =
      Except.error SelErr.bitrateTypeError := rfl
  refine ⟨h1, ?_⟩
  rw [h1]
  simp

/-- C3 (amended): audio-only selection filters to `hasAudio ∧ ¬hasVideo` and
errors on an empty filtered set; a missing bitrate is **not** treated as 0:
with two or more candidates, any missing bitrate makes the sort raise
`TypeError` (surfaced as an error dict); a single candidate is returned
as-is; when every candidate carries a bitrate, a record of maximal bitrate is
returned; on bitrates [128000, 320000, 64000] the 320000 record is chosen. -/
theorem c3_audio_selection :
    (∀ formats : List FormatRecord,
       formats.filter (fun f => f.hasAudio && !f.hasVideo) = [] →
       selectAudioOnly formats = Except.error SelErr.noAudioFormat) ∧
    (∀ formats : List FormatRecord,
       2 ≤ (formats.filter (fun f => f.hasAudio && !f.hasVideo)).length →
       (∃ g ∈ formats.filter (fun f => f.hasAudio && !f.hasVideo), g.bitrate = none) →
       selectAudioOnly formats = Except.error SelErr.bitrateTypeError) ∧
    (∀ (formats : List FormatRecord) (f : FormatRecord),
       formats.filter (fun f => f.hasAudio && !f.hasVideo) = [f] →
       selectAudioOnly formats = Except.ok f) ∧
    (∀ (formats : List FormatRecord) (f : FormatRecord),
       selectAudioOnly formats = Except.ok f →
       f ∈ formats.filter (fun f => f.hasAudio && !f.hasVideo) ∧
       ∀ g ∈ formats.filter (fun f => f.hasAudio && !f.hasVideo),
         g.bitrate.getD 0 ≤ f.bitrate.getD 0) ∧
    selectAudioOnly audioCat = Except.ok { hasAudio := true, bitrate := some 320000 } := by
  refine ⟨?_, ?_, ?_, ?_, ?_⟩
  · intro formats h
    simp [selectAudioOnly, h]
  · intro formats h2 hex
    obtain ⟨g, hg, hgn⟩ := hex
    have hany : ((formats.filter fun f => f.hasAudio && !f.hasVideo).any
        fun f => f.bitrate.isNone) = true :=
      List.any_eq_true.mpr ⟨g, hg, by simp [hgn]⟩
    have hne : (formats.filter fun f => f.hasAudio && !f.hasVideo).isEmpty = false := by
      cases hq : formats.filter fun f => f.hasAudio && !f.hasVideo with
      | nil => rw [hq] at h2; simp at h2
      | cons a tl => rfl
    simp only [selectAudioOnly, pySortDescOptKey, hne, Bool.false_eq_true, if_false]
    rw [if_pos ⟨h2, hany⟩]
  · intro formats f hfil
    have hne : (formats.filter fun f => f.hasAudio && !f.hasVideo).isEmpty = false := by
      rw [hfil]; rfl
    have hcond : ¬(2 ≤ (formats.filter fun f => f.hasAudio && !f.hasVideo).length ∧
        ((formats.filter fun f => f.hasAudio && !f.hasVideo).any
          fun f => f.bitrate.isNone) = true) := by
      intro hc
      rw [hfil] at hc
      simp at hc
    simp only [selectAudioOnly, pySortDescOptKey, hne, Bool.false_eq_true, if_false]
    rw [if_neg hcond, hfil]
    simp [sortDescBy, List.mergeSort]
  · intro formats f hok
    unfold selectAudioOnly at hok
    by_cases he : (formats.filter (fun f => f.hasAudio && !f.hasVideo)).isEmpty
    · simp [he] at hok
    · simp only [he, Bool.false_eq_true, if_false, pySortDescOptKey] at hok
      by_cases hc : 2 ≤ (formats.filter fun f => f.hasAudio && !f.hasVideo).length ∧
          ((formats.filter fun f => f.hasAudio && !f.hasVideo).any
            fun f => f.bitrate.isNone) = true
      · rw [if_pos hc] at hok
        simp at hok
      · rw [if_neg hc] at hok
        cases hh : (sortDescBy (fun f => ((f.bitrate.getD 0 : Nat) : Int))
            (formats.filter fun f => f.hasAudio && !f.hasVideo)).head? with
        | none =>
            simp only [hh] at hok
            exact Except.noConfusion hok
        | some f' =>
            simp only [hh] at hok
            have : f' = f := by simpa using hok
            subst this
            obtain ⟨hmem, hmax⟩ := sortDescBy_head_max hh
            refine ⟨hmem, fun g hg => ?_⟩
            exact_mod_cast hmax g hg
  · simp [selectAudioOnly, pySortDescOptKey, audioCat, sortDescBy, List.mergeSort,
      List.merge]

/-- C3 witness: the empty-catalog error rule discharged at the empty catalog,
and the TypeError rule discharged at a two-candidate catalog with a missing
bitrate. -/
theorem c3_audio_selection_witness :
    selectAudioOnly ([] : List FormatRecord) = Except.error SelErr.noAudioFormat ∧
    selectAudioOnly
      [ { hasAudio := true, bitrate := some 128000 },
        { hasAudio := true, bitrate := none } ] =
      Except.error SelErr.bitrateTypeError :=
  ⟨c3_audio_selection.1 [] rfl,
   c3_audio_selection.2.1
     [ { hasAudio := true, bitrate := some 128000 },
       { hasAudio := true, bitrate := none } ]
     (by decide)
     ⟨{ hasAudio := true, bitrate := none }, by decide, rfl⟩⟩

theorem endsWithP_ne_best {q : String} (h : endsWithP q = true) : (q == "best") = false := by
  cases hb : q == "best" with
  | false => rfl
  | true =>
      have : q = "best" := eq_of_beq hb
      subst this
      exact absurd h (by decide)

theorem endsWithP_ne_worst {q : String} (h : endsWithP q = true) : (q == "worst") = false := by
  cases hb : q == "worst" with
  | false => rfl
  | true =>
      have : q = "worst" := eq_of_beq hb
      subst this
      exact absurd h (by decide)

/-- C6: for a quality string of the form `<int>p` (the `Exact(n)` policy) over
the video-capable records: when a record with parsed resolution `n` exists,
the first such record in catalog order is selected with no notice; otherwise a
record minimizing `|resolution - n|` is selected and the approximate-match
notice is emitted; records at 360p/480p/720p/1080p give 720p for target 720
(exact, no notice) and 720p for target 700 (closest, with notice). -/
theorem c6_exact_quality :
    (∀ (q : String) (n : Int) (vfs : List FormatRecord) (f : FormatRecord)
       (rest : List FormatRecord),
       endsWithP q = true → pyInt (removeAllP q) = some n →
       vfs.filter (fun f => get_resolution f == n) = f :: rest →
       selectVideo q vfs = Except.ok (f, false)) ∧
    (∀ (q : String) (n : Int) (vfs : List FormatRecord) (f : FormatRecord),
       endsWithP q = true → pyInt (removeAllP q) = some n →
       vfs.filter (fun f => get_resolution f == n) = [] →
       selectVideo q vfs = Except.ok (f, true) →
       f ∈ vfs ∧ ∀ g ∈ vfs,
         (get_resolution f - n).natAbs ≤ (get_resolution g - n).natAbs) ∧
    (∀ (q : String) (n : Int) (vfs : List FormatRecord),
       endsWithP q = true → pyInt (removeAllP q) = some n →
       vfs.filter (fun f => get_resolution f == n) = [] → vfs ≠ [] →
       ∃ f, selectVideo q vfs = Except.ok (f, true)) ∧
    selectVideo "720p" videoCat =
      Except.ok ({ hasVideo := true, quality := some "720p" }, false) ∧
    selectVideo "700p" videoCat =
      Except.ok ({ hasVideo := true, quality := some "720p" }, true) := by
  refine ⟨?_, ?_, ?_, ?_, ?_⟩
  · intro q n vfs f rest hqP hparse hfilter
    simp [selectVideo, endsWithP_ne_best hqP, endsWithP_ne_worst hqP, hqP, hparse, hfilter]
  · intro q n vfs f hqP hparse hfilter hok
    simp only [selectVideo, endsWithP_ne_best hqP, endsWithP_ne_worst hqP, hqP,
      Bool.false_eq_true, if_false, if_true, hparse, hfilter, List.head?_nil] at hok
    cases hh : (sortAscBy (fun f => ((get_resolution f - n).natAbs : Int)) vfs).head? with
    | none => rw [hh] at hok; exact absurd hok (by simp)
    | some f' =>
        rw [hh] at hok
        have : f' = f := by simpa using hok
        subst this
        obtain ⟨hmem, hmin⟩ := sortAscBy_head_min hh
        refine ⟨hmem, fun g hg => ?_⟩
        have := hmin g hg
        exact_mod_cast this
  · intro q n vfs hqP hparse hfilter hne
    simp only [selectVideo, endsWithP_ne_best hqP, endsWithP_ne_worst hqP, hqP,
      Bool.false_eq_true, if_false, if_true, hparse, hfilter, List.head?_nil]
    cases hh : (sortAscBy (fun f => ((get_resolution f - n).natAbs : Int)) vfs).head? with
    | none => exact absurd hh (mergeSort_head?_isSome hne)
    | some f' => exact ⟨f', by simp⟩
  · simp [selectVideo, videoCat, endsWithP, pyInt, pyIntChars, removeAllP,
      get_resolution, digitsToNat, isDigitChar]
  · simp [selectVideo, videoCat, endsWithP, pyInt, pyIntChars, removeAllP,
      get_resolution, digitsToNat, isDigitChar, sortAscBy, List.mergeSort, List.merge]

/-- C6 witness: the exact-match rule discharged at the scenario catalog with
target 720, whose filtered set is the singleton 720p record. -/
theorem c6_exact_quality_witness :
    selectVideo "720p" videoCat =
      Except.ok ({ hasVideo := true, quality := some "720p" }, false) :=
  c6_exact_quality.1 "720p" 720 videoCat { hasVideo := true, quality := some "720p" } []
    (by decide) (by decide) (by decide)

/-! # C5: the format-catalog normalizer -/

theorem foldl_append_filter (g : RawFormat → FormatRecord) :
    ∀ (l : List RawFormat) (acc : List FormatRecord),
      l.foldl (fun acc f => if f.hasUrl then acc ++ [g f] else acc) acc =
        acc ++ (l.filter RawFormat.hasUrl).map g := by
  intro l
  induction l with
  | nil => intro acc; simp
  | cons f rest ih =>
      intro acc
      by_cases h : f.hasUrl
      · simp [List.foldl_cons, h, ih, List.filter_cons]
      · simp [List.foldl_cons, h, ih, List.filter_cons]

theorem hasUrl_spec {f : RawFormat} (h : f.hasUrl = true) :
    ∃ s, f.url = some s ∧ s ≠ "" := by
  unfold RawFormat.hasUrl at h
  cases hu : f.url with
  | none => rw [hu] at h; exact absurd h (by simp)
  | some s =>
      rw [hu] at h
      exact ⟨s, rfl, by simpa using h⟩

/-- C5: the normalizer keeps exactly the records with a truthy (present,
non-empty) URL, emitting all combined formats first (marked `hasAudio` and
`hasVideo`) then all adaptive formats (membership from the MIME string), each
in API order; every output record carries a non-empty URL; one combined
format with a URL plus one adaptive format without one yield exactly one
record. -/
theorem c5_normalizer :
    (∀ combined adaptive : List RawFormat,
       normalizeFormats combined adaptive =
         (combined.filter RawFormat.hasUrl).map mkCombined ++
         (adaptive.filter RawFormat.hasUrl).map mkAdaptive) ∧
    (∀ (combined adaptive : List RawFormat) (r : FormatRecord),
       r ∈ normalizeFormats combined adaptive → ∃ s, r.url = some s ∧ s ≠ "") ∧
    (∀ f : RawFormat, (mkCombined f).hasAudio = true ∧ (mkCombined f).hasVideo = true) ∧
    (∀ f : RawFormat,
       (mkAdaptive f).hasAudio = mimeContains "audio" (f.mimeType.getD "") ∧
       (mkAdaptive f).hasVideo = mimeContains "video" (f.mimeType.getD "")) ∧
    normalizeFormats [{ url := some "http://a" }] [{ mimeType := some "audio/mp4" }] =
      [mkCombined { url := some "http://a" }] := by
  have hchar : ∀ combined adaptive : List RawFormat,
      normalizeFormats combined adaptive =
        (combined.filter RawFormat.hasUrl).map mkCombined ++
        (adaptive.filter RawFormat.hasUrl).map mkAdaptive := by
    intro combined adaptive
    unfold normalizeFormats
    rw [foldl_append_filter mkCombined combined [], foldl_append_filter mkAdaptive adaptive]
    simp
  refine ⟨hchar, ?_, fun f => ⟨rfl, rfl⟩, fun f => ⟨rfl, rfl⟩, by decide⟩
  · intro combined adaptive r hr
    rw [hchar] at hr
    rcases List.mem_append.mp hr with hr | hr
    · obtain ⟨f, hf, rfl⟩ := List.mem_map.mp hr
      obtain ⟨s, hs, hne⟩ := hasUrl_spec (List.mem_filter.mp hf).2
      exact ⟨s, hs, hne⟩
    · obtain ⟨f, hf, rfl⟩ := List.mem_map.mp hr
      obtain ⟨s, hs, hne⟩ := hasUrl_spec (List.mem_filter.mp hf).2
      exact ⟨s, hs, hne⟩

/-- C5 witness: the non-empty-URL guarantee discharged at the scenario
catalog's single record. -/
theorem c5_normalizer_witness :
    ∃ s, (mkCombined { url := some "http://a" }).url = some s ∧ s ≠ "" :=
  c5_normalizer.2.1 [{ url := some "http://a" }] [{ mimeType := some "audio/mp4" }]
    (mkCombined { url := some "http://a" }) (by decide)

/-! # C2: profile negotiation order -/

theorem gviLoop_no_ok_before_end (t : Nat → Except Unit PlayerResp) (vid : String) :
    ∀ (ctxs : List String) (prev : Option PlayerResp) (rc i : Nat),
      rc ≤ i → i + 1 < (gviLoop t vid ctxs prev rc).2 →
      isOkResponse (t i) = false := by
  intro ctxs
  induction ctxs with
  | nil =>
      intro prev rc i hle hlt
      simp only [gviLoop] at hlt
      omega
  | cons ctx rest ih =>
      intro prev rc i hle hlt
      simp only [gviLoop] at hlt
      cases h : t rc with
      | error e =>
          cases e
          rw [h] at hlt
          rcases Nat.eq_or_lt_of_le hle with rfl | hgt
          · simp [isOkResponse, h]
          · by_cases hl : (ctx == lastContextName) = true
            · simp only [hl, if_true] at hlt; omega
            · simp only [hl, Bool.false_eq_true, if_false] at hlt
              exact ih prev (rc + 1) i hgt hlt
      | ok resp =>
          simp only [h] at hlt
          cases hps : resp.playabilityStatus with
          | none =>
              simp only [hps] at hlt
              rcases Nat.eq_or_lt_of_le hle with rfl | hgt
              · simp [isOkResponse, h, hps]
              · exact ih (some resp) (rc + 1) i hgt hlt
          | some ps =>
              simp only [hps] at hlt
              by_cases hOK : (ps.status == some "OK") = true
              · simp only [hOK, if_true] at hlt; omega
              · have hOK' : (ps.status == some "OK") = false := by
                  cases hq : ps.status == some "OK"
                  · rfl
                  · exact absurd hq hOK
                rcases Nat.eq_or_lt_of_le hle with rfl | hgt
                · simp [isOkResponse, h, hps, hOK']
                · by_cases hUn : (ps.status == some "UNPLAYABLE") = true
                  · simp only [hOK', hUn, Bool.false_eq_true, if_false, if_true] at hlt
                    exact ih (some resp) (rc + 1) i hgt hlt
                  · have hUn' : (ps.status == some "UNPLAYABLE") = false := by
                      cases hq : ps.status == some "UNPLAYABLE"
                      · rfl
                      · exact absurd hq hUn
                    by_cases hl : (ctx == lastContextName) = true
                    · simp only [hOK', hUn', hl, Bool.false_eq_true, if_false, if_true] at hlt
                      omega
                    · simp only [hOK', hUn', hl, Bool.false_eq_true, if_false] at hlt
                      exact ih (some resp) (rc + 1) i hgt hlt

/-- C2: no metadata request is ever issued under a further profile once a
response has parsed with playability status `OK` (any request that was
followed by another was not `OK`); and in the scenario where the first
profile's response is `UNPLAYABLE` and the second's is `OK`, the call returns
the info built from the second response and issues exactly two requests. -/
theorem c2_negotiation :
    (∀ (t : Nat → Except Unit PlayerResp) (url : String) (i : Nat),
       i + 1 < (get_video_info t url).2 → isOkResponse (t i) = false) ∧
    (∀ (t : Nat → Except Unit PlayerResp) (r1 r2 : PlayerResp)
       (ps1 ps2 : PlayabilityStatus),
       t 0 = Except.ok r1 → r1.playabilityStatus = some ps1 →
       ps1.status = some "UNPLAYABLE" →
       t 1 = Except.ok r2 → r2.playabilityStatus = some ps2 →
       ps2.status = some "OK" →
       get_video_info t "dQw4w9WgXcQ" = (buildInfo "dQw4w9WgXcQ" r2, 2)) := by
  constructor
  · intro t url i hlt
    unfold get_video_info at hlt
    cases hx : extract_video_id url with
    | none => rw [hx] at hlt; simp at hlt
    | some vid =>
        rcases hg : gviLoop t vid contextNames none 0 with ⟨res, n⟩
        simp only [hx, hg] at hlt
        have hn : i + 1 < n := by
          rcases res with e | o
          · simpa using hlt
          · rcases o with _ | resp <;> simpa using hlt
        exact gviLoop_no_ok_before_end t vid contextNames none 0 i (Nat.zero_le i)
          (by rw [hg]; exact hn)
  · intro t r1 r2 ps1 ps2 h0 hps1 hs1 h1 hps2 hs2
    have hx : extract_video_id "dQw4w9WgXcQ" = some "dQw4w9WgXcQ" := by decide
    have hloop : gviLoop t "dQw4w9WgXcQ" contextNames none 0 =
        (Except.ok (some r2), 2) := by
      simp only [contextNames, gviLoop, lastContextName, h0, h1, hps1, hps2, hs1, hs2,
        show (("ANDROID" : String) == "WEB") = false from rfl,
        show (("IOS" : String) == "WEB") = false from rfl,
        show ((some "UNPLAYABLE" : Option String) == some "OK") = false from rfl,
        show ((some "UNPLAYABLE" : Option String) == some "UNPLAYABLE") = true from rfl,
        show ((some "OK" : Option String) == some "OK") = true from rfl,
        Bool.false_eq_true, if_false, if_true]
    unfold get_video_info
    simp only [hx, hloop]

/-- C2 witness: the scenario discharged at a concrete transport whose first
response is `UNPLAYABLE` and whose second is `OK` with a title and one
combined format. -/
theorem c2_negotiation_witness :
    get_video_info
      (fun i =>
        if i = 0 then
          Except.ok { playabilityStatus := some { status := some "UNPLAYABLE" } }
        else
          Except.ok
            { playabilityStatus := some { status := some "OK" },
              videoDetails := some { title := some "T2" },
              streamingData := some { formats := some [{ url := some "u" }] } })
      "dQw4w9WgXcQ" =
      (buildInfo "dQw4w9WgXcQ"
        { playabilityStatus := some { status := some "OK" },
          videoDetails := some { title := some "T2" },
          streamingData := some { formats := some [{ url := some "u" }] } }, 2) :=
  c2_negotiation.2 _ _ _ _ _ rfl rfl rfl rfl rfl rfl

end YtScrapper
